import Mathlib

/-!
A Lean model of the census-processing pipeline of this repository
(`nextus_census_processor.py`, function `process_census_files` together with
its inner helper `add_patient_row`), and theorems checking the stated
properties of that pipeline.

Modelling conventions:
* A CSV cell is a `Cell`: the column may be absent from the file
  (`Cell.missing`, where `row.get(key, '')` yields the string default), the
  cell may be empty in an existing column — which pandas reads as the float
  NaN (`Cell.nan`, where `row.get` yields the NaN itself, `str()` of it is
  `'nan'`, `isinstance(v, str)` is false, `pd.isna` is true and `.lower()`
  raises `AttributeError`) — or it holds a string (`Cell.str`).
* Python dictionaries (`patient_data`, the per-patient `services` map) are
  insertion-ordered association lists, exactly as Python dicts preserve
  insertion order.
* `datetime.strptime(s, "%Y-%m-%d")` is modelled by `strptimeYmd`, following
  CPython's `_strptime` implementation: the format is compiled to the regular
  expression `\d\d\d\d-(1[0-2]|0[1-9]|[1-9])-(3[01]|[12]\d|0[1-9]|[1-9])`,
  which must match the whole string, and the resulting numbers must form a
  valid calendar date (year at least 1).
-/

/-- ASCII whitespace as handled by Python's `str.strip()`/`str.split()`. -/
def isSpace (c : Char) : Bool := c = ' ' ∨ c = '\t' ∨ c = '\n' ∨ c = '\r'

/-- Python `str.strip()`: drop leading and trailing whitespace. -/
def pyStrip (s : String) : String :=
  ⟨((s.data.dropWhile isSpace).reverse.dropWhile isSpace).reverse⟩

/-- Python `str.split()` with no argument: split on runs of whitespace,
dropping empty pieces. -/
def wsTokens (cs : List Char) : List (List Char) :=
  (cs.foldr
    (fun c acc =>
      if isSpace c then [] :: acc
      else
        match acc with
        | [] => [[c]]
        | t :: ts => (c :: t) :: ts)
    []).filter (fun t => !t.isEmpty)

/-- Python `str.startswith` on character lists. -/
def startsWithList : List Char → List Char → Bool
  | _, [] => true
  | [], _ :: _ => false
  | a :: as, b :: bs => decide (a = b) && startsWithList as bs

/-- Python's `needle in hay` substring test on character lists. -/
def containsList (hay needle : List Char) : Bool :=
  match hay with
  | [] => needle.isEmpty
  | c :: t => startsWithList (c :: t) needle || containsList t needle

/-- Python `str.lower()` (ASCII case folding suffices for this program). -/
def pyLower (s : String) : String := ⟨s.data.map Char.toLower⟩

/-- Ordered-dictionary lookup: the value stored at the first matching key. -/
def alistGet {α β : Type} [DecidableEq α] (k : α) : List (α × β) → Option β
  | [] => none
  | (k0, v) :: rest => if k0 = k then some v else alistGet k rest

/-- One CSV cell as pandas presents it: the column may be absent from the
file, the cell may be empty in an existing column (read as the float NaN),
or it holds a string. -/
inductive Cell where
  | missing
  | nan
  | str (s : String)
deriving DecidableEq

/-- A Python value read out of a row: a string, or the float NaN. -/
inductive PyVal where
  | str (s : String)
  | nanFloat
deriving DecidableEq

/-- `row.get(key, '')`: the string default for a missing column, the float
NaN for an empty cell, otherwise the cell's string. -/
def Cell.get : Cell → PyVal
  | Cell.missing => PyVal.str ""
  | Cell.nan => PyVal.nanFloat
  | Cell.str s => PyVal.str s

/-- Python `str(v)`: the string itself, or `'nan'` for the float NaN. -/
def PyVal.toPyStr : PyVal → String
  | PyVal.str s => s
  | PyVal.nanFloat => "nan"

/-- Python `v == t` against a string literal: a float NaN equals no string. -/
def PyVal.eqStr : PyVal → String → Bool
  | PyVal.str s, t => decide (s = t)
  | PyVal.nanFloat, _ => false

/-- Python `v.lower()`: defined for strings; on the float NaN it raises the
uncaught AttributeError of line 400. -/
def PyVal.lower : PyVal → Except String String
  | PyVal.str s => Except.ok (pyLower s)
  | PyVal.nanFloat =>
    Except.error "AttributeError: float object has no attribute lower"

/-- One input CSV row, with the columns the processor reads. -/
structure Row where
  name : Cell
  mr : Cell
  program : Cell
  status : Cell
  payment : Cell
  admission : Cell
  urLoc : Cell
  nextReview : Cell
  comment : Cell
deriving DecidableEq

/-- The normalized attendance fact produced from one accepted row. -/
structure AttendanceFact where
  unique_id : String
  last_name : String
  first_name : String
  admit_date : PyVal
  payer_source : PyVal
  program : String
  ur_review : String
  billing_comments : PyVal
  service_code : String
deriving DecidableEq

/-- The per-patient aggregate record stored in `patient_data`. -/
structure PatientRecord where
  last_name : String
  first_name : String
  admit_date : PyVal
  payer_source : PyVal
  program : String
  icd10 : String
  ur_review : String
  billing_comments : PyVal
  services : List (Nat × String)
deriving DecidableEq

/-- The fixed `program_map` dictionary (lines 49-59), with its fallback
`program_map.get(program, program)`. -/
def program_map (p : String) : String :=
  if p = "SUD-PHP" then "PHP"
  else if p = "SUD-OP" then "OP"
  else if p = "MH-PHP" then "MHPHP"
  else if p = "MH-IOP" then "MHIOP"
  else if p = "PHP" then "PHP"
  else if p = "IOP" then "IOP"
  else if p = "OP" then "OP"
  else if p = "MHPHP" then "MHPHP"
  else if p = "MHIOP" then "MHIOP"
  else p

/-- Lines 117-123: the mapped program of a row.  `row.get('Program', '')`
is a string unless the cell is NaN; a string is stripped and sent through
`program_map`, anything else (the NaN) maps to `''`. -/
def mappedProgram (c : Cell) : String :=
  match c.get with
  | PyVal.str s => program_map (pyStrip s)
  | PyVal.nanFloat => ""

/-- Lines 126-133: the service code derived from a row, `''` when no service
is to be recorded.  The status comparison is Python `==`, false for NaN. -/
def derivedService (r : Row) : String :=
  let mapped_program := mappedProgram r.program
  if (r.status.get).eqStr "Present" = true ∧ mapped_program ≠ "" then mapped_program
  else if (r.status.get).eqStr "Absent" = true then "X"
  else ""

/-- One iteration of the row loop (lines 95-139) up to the construction of a
normalized attendance fact; `none` is the `continue` (skip) path: a missing
Name column or NaN Name cell (the `pd.isna` check), a name that does not
split into two tokens, or an empty derived service code.  Line 112 applies
`str(...)` to the MR value, so a NaN MR cell yields the key `'nan'`. -/
def normRow (r : Row) : Option AttendanceFact :=
  match r.name with
  | Cell.str nm =>
    let full_name := pyStrip nm
    let name_parts : List String := (wsTokens full_name.data).map (fun t => (⟨t⟩ : String))
    if name_parts.length < 2 then none
    else
      let last_name := name_parts.getLastD ""
      let first_name := String.intercalate " " name_parts.dropLast
      let mr_number := pyStrip ((r.mr.get).toPyStr)
      let unique_id := if mr_number ≠ "" then mr_number else last_name ++ "_" ++ first_name
      let mapped_program := mappedProgram r.program
      let service_code := derivedService r
      if service_code = "" then none
      else
        some { unique_id, last_name, first_name,
               admit_date := r.admission.get,
               payer_source := r.payment.get,
               program := mapped_program,
               ur_review := (r.urLoc.get).toPyStr ++ " - Next review: "
                 ++ (r.nextReview.get).toPyStr,
               billing_comments := r.comment.get,
               service_code }
  | _ => none

/-- Python dict assignment `services[day] = code`: update in place if the key
exists (keeping its position), otherwise append at the end. -/
def setDay (svcs : List (Nat × String)) (d : Nat) (c : String) : List (Nat × String) :=
  if (alistGet d svcs).isSome then
    svcs.map (fun p => if p.1 = d then (p.1, c) else p)
  else svcs ++ [(d, c)]

/-- The `patient_data` dictionary: identity key to patient record, in
insertion order. -/
abbrev PD := List (String × PatientRecord)

/-- Lines 141-156: create the patient record on first sight of the identity
(static fields taken from this fact), then write the day's service code. -/
def insertFact (pd : PD) (day : Nat) (f : AttendanceFact) : PD :=
  let pd1 :=
    if (alistGet f.unique_id pd).isSome then pd
    else pd ++ [(f.unique_id,
      { last_name := f.last_name, first_name := f.first_name,
        admit_date := f.admit_date, payer_source := f.payer_source,
        program := f.program, icd10 := "",
        ur_review := f.ur_review, billing_comments := f.billing_comments,
        services := [] })]
  pd1.map (fun e =>
    if e.1 = f.unique_id then (e.1, { e.2 with services := setDay e.2.services day f.service_code })
    else e)

/-- One full iteration of the row loop: normalize, then fold into
`patient_data` (skipped rows leave the state unchanged). -/
def processRow (pd : PD) (day : Nat) (r : Row) : PD :=
  match normRow r with
  | none => pd
  | some f => insertFact pd day f

/-- Fold a flat list of (day-of-month, row) pairs into `patient_data`. -/
def foldPairs (items : List (Nat × Row)) : PD :=
  items.foldl (fun pd it => processRow pd it.1 it.2) []

/-- The first item whose normalized fact carries the given identity: the row
that establishes the identity in `patient_data`. -/
def firstFact (uid : String) (items : List (Nat × Row)) : Option (Nat × AttendanceFact) :=
  items.findSome? (fun it =>
    match normRow it.2 with
    | some f => if f.unique_id = uid then some (it.1, f) else none
    | none => none)

/-- The service code of the last item writing the given identity and day:
what "last write wins" leaves in the day map. -/
def lastWrite (uid : String) (day : Nat) (items : List (Nat × Row)) : Option String :=
  (items.filterMap (fun it =>
    match normRow it.2 with
    | some f => if f.unique_id = uid ∧ it.1 = day then some f.service_code else none
    | none => none)).getLast?

/-- ASCII decimal digit (the `\d` character class on these file names). -/
def isDig (c : Char) : Bool := 48 ≤ c.toNat ∧ c.toNat ≤ 57

/-- Take exactly `n` digits from the front, returning them and the rest. -/
def takeDigits : Nat → List Char → Option (List Char × List Char)
  | 0, cs => some ([], cs)
  | _ + 1, [] => none
  | n + 1, c :: cs =>
    if isDig c then (takeDigits n cs).map (fun p => (c :: p.1, p.2)) else none

/-- Match `[-_]?\d{2}` at the front of the list.  No backtracking over the
optional separator is needed: a separator character is never a digit, so if
the separator branch is taken and the two digits fail, the separator-absent
branch fails as well. -/
def matchSepDigits2 (cs : List Char) : Option (List Char × List Char) :=
  match cs with
  | [] => none
  | c :: rest =>
    if c = '-' ∨ c = '_' then
      (takeDigits 2 rest).map (fun p => (c :: p.1, p.2))
    else
      (takeDigits 2 cs).map (fun p => (p.1, p.2))

/-- Match the pattern `\d{4}[-_]?\d{2}[-_]?\d{2}` anchored at the front,
returning the matched token. -/
def matchDateToken (cs : List Char) : Option String :=
  match takeDigits 4 cs with
  | none => none
  | some (y4, r1) =>
    match matchSepDigits2 r1 with
    | none => none
    | some (md, r2) =>
      match matchSepDigits2 r2 with
      | none => none
      | some (dd, _) => some ⟨y4 ++ md ++ dd⟩

/-- `re.search(r'(\d{4}[-_]?\d{2}[-_]?\d{2})', name)` (line 68): the match at
the leftmost position where the pattern matches. -/
def searchDateToken : List Char → Option String
  | [] => none
  | c :: cs =>
    match matchDateToken (c :: cs) with
    | some t => some t
    | none => searchDateToken cs

/-- Gregorian leap year, as in Python's `calendar.isleap`. -/
def isLeap (y : Nat) : Bool := (y % 4 = 0 ∧ y % 100 ≠ 0) ∨ y % 400 = 0

/-- Number of days in a month (as checked by `datetime` and reported by
`calendar.monthrange(year, month)[1]`). -/
def daysInMonth (y m : Nat) : Nat :=
  if m = 2 then (if isLeap y then 29 else 28)
  else if m = 4 ∨ m = 6 ∨ m = 9 ∨ m = 11 then 30
  else 31

/-- Numeric value of a digit string. -/
def digitsVal (cs : List Char) : Nat := cs.foldl (fun a c => 10 * a + (c.toNat - 48)) 0

/-- The one-digit alternative `[1-9]` shared by the `%m` and `%d` regexes. -/
def oneDigitAlt : List Char → List (Nat × List Char)
  | [] => []
  | c1 :: rest => if 49 ≤ c1.toNat ∧ c1.toNat ≤ 57 then [(digitsVal [c1], rest)] else []

/-- The two-digit alternatives `1[0-2]|0[1-9]` of the `%m` regex. -/
def monthTwoDigitAlts : List Char → List (Nat × List Char)
  | c1 :: c2 :: rest =>
    (if c1 = '1' ∧ 48 ≤ c2.toNat ∧ c2.toNat ≤ 50 then [(digitsVal [c1, c2], rest)] else []) ++
    (if c1 = '0' ∧ 49 ≤ c2.toNat ∧ c2.toNat ≤ 57 then [(digitsVal [c1, c2], rest)] else [])
  | _ => []

/-- The alternatives of CPython's regex for `%m`, namely
`1[0-2]|0[1-9]|[1-9]`, in regex priority order, each with the value parsed
and the remaining input. -/
def monthAlts (cs : List Char) : List (Nat × List Char) :=
  monthTwoDigitAlts cs ++ oneDigitAlt cs

/-- The two-digit alternatives `3[01]|[12]\d|0[1-9]` of the `%d` regex. -/
def dayTwoDigitAlts : List Char → List (Nat × List Char)
  | c1 :: c2 :: rest =>
    (if c1 = '3' ∧ (c2 = '0' ∨ c2 = '1') then [(digitsVal [c1, c2], rest)] else []) ++
    (if (c1 = '1' ∨ c1 = '2') ∧ isDig c2 then [(digitsVal [c1, c2], rest)] else []) ++
    (if c1 = '0' ∧ 49 ≤ c2.toNat ∧ c2.toNat ≤ 57 then [(digitsVal [c1, c2], rest)] else [])
  | _ => []

/-- The alternatives of CPython's regex for `%d`, namely
`3[01]|[12]\d|0[1-9]|[1-9]`, in regex priority order. -/
def dayAlts (cs : List Char) : List (Nat × List Char) :=
  dayTwoDigitAlts cs ++ oneDigitAlt cs

/-- `datetime.strptime(s, "%Y-%m-%d")`: the compiled format regex
`\d\d\d\d-(%m)-(%d)` must match the whole string (first regex parse in
priority order), and the parsed numbers must be a valid calendar date with
year at least `MINYEAR = 1`. -/
def strptimeYmd (s : String) : Option (Nat × Nat × Nat) :=
  match takeDigits 4 s.data with
  | none => none
  | some (yc, r1) =>
    match r1 with
    | '-' :: r2 =>
      (((monthAlts r2).filterMap (fun ma =>
          match ma.2 with
          | '-' :: r4 =>
            ((dayAlts r4).filterMap (fun da =>
                if da.2 = [] then some (digitsVal yc, ma.1, da.1) else none)).head?
          | _ => none)).head?).bind
        (fun ymd =>
          if 1 ≤ ymd.1 ∧ 1 ≤ ymd.2.2 ∧ ymd.2.2 ≤ daysInMonth ymd.1 ymd.2.1
          then some ymd else none)
    | _ => none

/-- Lines 68-79: extract the date token from a file name, replace `_` by
`-`, and parse with `strptime`; `none` is the "skip this file" path, taken
both when no token matches and when the token does not parse. -/
def extract_file_date (filename : String) : Option (Nat × Nat × Nat) :=
  match searchDateToken filename.data with
  | none => none
  | some tok => strptimeYmd ⟨tok.data.map (fun c => if c = '_' then '-' else c)⟩

example : extract_file_date "attendance_2025-03-05.csv" = some (2025, 3, 5) := by decide
example : extract_file_date "attendance_2025_03_05.csv" = some (2025, 3, 5) := by decide
example : extract_file_date "attendance_20250305.csv" = none := by decide
example : extract_file_date "attendance_2025-02-30.csv" = none := by decide
example : extract_file_date "nodate.csv" = none := by decide

/-- One input CSV file: its name and its parsed rows. -/
structure CsvFile where
  filename : String
  rows : List Row
deriving DecidableEq

/-- Lines 62-163: process one CSV file into `patient_data`.  The file is
skipped (state unchanged) when no date token is found, when the token does
not parse, or when the parsed month/year differ from the target. -/
def processFile (month year : Nat) (pd : PD) (f : CsvFile) : PD :=
  match extract_file_date f.filename with
  | none => pd
  | some (y, m, d) =>
    if m ≠ month ∨ y ≠ year then pd
    else f.rows.foldl (fun acc r => processRow acc d r) pd

/-- The whole file loop: fold every discovered CSV file, in order, into the
(initially empty) `patient_data` dictionary. -/
def runFiles (month year : Nat) (files : List CsvFile) : PD :=
  files.foldl (processFile month year) []

/-- Does this file pass both gates of lines 68-84, a parsed filename date in
the target month and year? -/
def fileMatches (month year : Nat) (f : CsvFile) : Bool :=
  match extract_file_date f.filename with
  | none => false
  | some (y, m, _) => decide (m = month) && decide (y = year)

/-- The (day, row) pairs one file contributes: its rows tagged with its
filename day when the file passes the date gates, nothing otherwise. -/
def filePairs (month year : Nat) (f : CsvFile) : List (Nat × Row) :=
  match extract_file_date f.filename with
  | none => []
  | some (y, m, d) =>
    if m ≠ month ∨ y ≠ year then []
    else f.rows.map (fun r => (d, r))

/-- All (day, row) pairs contributed by the included files, in processing
order. -/
def includedPairs (month year : Nat) (files : List CsvFile) : List (Nat × Row) :=
  (files.map (filePairs month year)).flatten

/-- Lines 399-404: the test deciding the Medicaid group, a case-insensitive
substring check for `medicaid` on the payer source, for records whose payer
value is a string (a NaN payer never reaches the test: line 400 raises
first). -/
def isMedicaid (p : PatientRecord) : Bool :=
  match p.payer_source with
  | PyVal.str s => containsList (pyLower s).data "medicaid".data
  | PyVal.nanFloat => false

/-- Lines 396-404: the Standard group, in `patient_data` iteration order
(the partition loop's output on its successful path). -/
def standard_patients (pd : PD) : PD := pd.filter (fun e => !isMedicaid e.2)

/-- Lines 396-404: the Medicaid group, in `patient_data` iteration order. -/
def medicaid_patients (pd : PD) : PD := pd.filter (fun e => isMedicaid e.2)

/-- Lines 396-404: the partition loop itself.  Each record's payer source is
lowercased at line 400; when that value is the float NaN (an empty Payment
Method cell), the `.lower()` call raises an uncaught AttributeError that
aborts the whole run, so no grouping is produced. -/
def partitionPatients : PD → Except String (PD × PD)
  | [] => Except.ok ([], [])
  | e :: rest =>
    match (e.2.payer_source).lower with
    | Except.error m => Except.error m
    | Except.ok payer =>
      match partitionPatients rest with
      | Except.error m => Except.error m
      | Except.ok (std, med) =>
        Except.ok (if containsList payer.data "medicaid".data
                   then (std, e :: med) else (e :: std, med))

/-- The sort key relation used by `sorted(..., key=lambda x:
x[1].get('last_name', ''))` (lines 465 and 486): comparison of last names. -/
def byLastLe (a b : String × PatientRecord) : Prop := a.2.last_name ≤ b.2.last_name

instance : DecidableRel byLastLe :=
  fun a b => (inferInstance : Decidable (a.2.last_name ≤ b.2.last_name))

/-- Python's `sorted` is the unique stable ascending reordering, modelled by
the stable insertion sort on the last-name key. -/
def sortByLast (l : PD) : PD := List.insertionSort byLastLe l

/-- `calendar.month_name[m]` for the month names used in the title and the
output file name. -/
def month_name (m : Nat) : String :=
  ["", "January", "February", "March", "April", "May", "June", "July",
   "August", "September", "October", "November", "December"].getD m ""

/-- Line 343: `day_labels = ["Sat", "Sun", "Mon", "Tue", "Wed", "Thu",
"Fri"] * 5`. -/
def day_labels : List String :=
  (List.replicate 5 ["Sat", "Sun", "Mon", "Tue", "Wed", "Thu", "Fri"]).flatten

/-- Lines 344-347: the weekday label written in row 6 above day `day` is
`day_labels[(day - 1) % 7]`. -/
def dayOfWeekLabel (day : Nat) : String := day_labels.getD ((day - 1) % 7) ""

/-- One day cell of an emitted patient row. -/
structure DayCell where
  value : String
  highlighted : Bool
deriving DecidableEq

/-- Lines 429-448 of `add_patient_row`: the day cells of one patient row.
The cell holds the day's service code (empty when the day is absent from the
map), and the yellow fill is applied exactly under Python's
`service and service != 'X' and not service.startswith('X')`. -/
def dayCells (days_in_month : Nat) (p : PatientRecord) : List DayCell :=
  (List.range' 1 days_in_month).map (fun day =>
    let service := (alistGet day p.services).getD ""
    { value := service,
      highlighted :=
        decide (service ≠ "" ∧ service ≠ "X" ∧ startsWithList service.data ['X'] = false) })

/-- Line 452 of `add_patient_row`: the UR Comments cell holds the record's
`ur_review` text. -/
def urCellValue (p : PatientRecord) : String := p.ur_review

/-- The content of the produced report that the claims speak about: the
title, the weekday banner, the two sorted patient blocks with the divider
flag, and the output file name. -/
structure Output where
  title : String
  dayHeaders : List (Nat × String)
  standardRows : PD
  hasMedicaidDivider : Bool
  medicaidRows : PD
  outputName : String
deriving DecidableEq

/-- Lines 171-544 (workbook synthesis): the report content assembled from
the two partitioned groups. -/
def assembleOutput (month year : Nat) (std med : PD) : Output :=
  let days := daysInMonth year month
  { title := month_name month ++ " " ++ toString year ++ " Census",
    dayHeaders := (List.range' 1 days).map (fun d => (d, dayOfWeekLabel d)),
    standardRows := sortByLast std,
    hasMedicaidDivider := !med.isEmpty,
    medicaidRows := sortByLast med,
    outputName := "Census_" ++ month_name month ++ "_" ++ toString year ++ ".xlsx" }

/-- The report content on the successful-partition path: the loop's groups
are then exactly the two filters of `patient_data` (`partitionPatients_ok`
below). -/
def buildOutput (month year : Nat) (pd : PD) : Output :=
  assembleOutput month year (standard_patients pd) (medicaid_patients pd)

/-- `process_census_files` end to end: return with no document when the
input folder holds no CSV files at all (lines 33-36); otherwise aggregate
every file and build and save the report (lines 42-544), unless the
partition loop raises on a NaN payer source, which aborts the run with an
uncaught exception and no document. -/
def process_census_files (files : List CsvFile) (month year : Nat) :
    Except String (Option Output) :=
  if files.isEmpty then Except.ok none
  else
    match partitionPatients (runFiles month year files) with
    | Except.error m => Except.error m
    | Except.ok (std, med) => Except.ok (some (assembleOutput month year std med))

/-- A sample accepted row (the spec's worked scenario). -/
def demoRowPresent : Row where
  name := Cell.str "Jane Doe"
  mr := Cell.str "123"
  program := Cell.str "SUD-PHP"
  status := Cell.str "Present"
  payment := Cell.str "Medicaid HMO"
  admission := Cell.str "01/05/2025"
  urLoc := Cell.str "PHP"
  nextReview := Cell.str "3/20"
  comment := Cell.str "ok"

example : (normRow demoRowPresent).map AttendanceFact.service_code = some "PHP" := by decide

/-- A sample row with a one-token name (skipped by the normalizer). -/
def demoRowShortName : Row where
  name := Cell.str "Jane"
  mr := Cell.missing
  program := Cell.missing
  status := Cell.str "Present"
  payment := Cell.missing
  admission := Cell.missing
  urLoc := Cell.missing
  nextReview := Cell.missing
  comment := Cell.missing

example : normRow demoRowShortName = none := by decide

/-- The same patient, absent on a later day. -/
def demoRowAbsent : Row where
  name := Cell.str "Jane Doe"
  mr := Cell.str "123"
  program := Cell.str "SUD-PHP"
  status := Cell.str "Absent"
  payment := Cell.str "Aetna"
  admission := Cell.str "02/02/2025"
  urLoc := Cell.str "OP"
  nextReview := Cell.str "4/01"
  comment := Cell.str "later"

/-- A patient with no MR column and a non-Medicaid payer. -/
def demoRowNoMr : Row where
  name := Cell.str "Ann B Smith"
  mr := Cell.missing
  program := Cell.str "IOP"
  status := Cell.str "Present"
  payment := Cell.str "Aetna"
  admission := Cell.str "01/10/2025"
  urLoc := Cell.missing
  nextReview := Cell.missing
  comment := Cell.missing

/-- A row whose MR cell is empty in an existing MR column: pandas reads the
float NaN, and line 112 turns it into the literal key `'nan'`. -/
def demoRowNanMr : Row where
  name := Cell.str "Jane Doe"
  mr := Cell.nan
  program := Cell.str "SUD-PHP"
  status := Cell.str "Present"
  payment := Cell.str "Aetna"
  admission := Cell.str "01/05/2025"
  urLoc := Cell.missing
  nextReview := Cell.missing
  comment := Cell.missing

/-- A row whose Payment Method cell is empty in an existing column: the
float NaN is stored as the payer source and later crashes line 400. -/
def demoRowNanPayer : Row where
  name := Cell.str "Jane Doe"
  mr := Cell.str "123"
  program := Cell.str "SUD-PHP"
  status := Cell.str "Present"
  payment := Cell.nan
  admission := Cell.str "01/05/2025"
  urLoc := Cell.missing
  nextReview := Cell.missing
  comment := Cell.missing

/-- A file in the target month carrying the NaN-payer row. -/
def demoFileNanPayer : CsvFile := ⟨"attendance_2025-03-05.csv", [demoRowNanPayer]⟩

def demoFile1 : CsvFile := ⟨"attendance_2025-03-05.csv", [demoRowPresent, demoRowNoMr]⟩

def demoFile2 : CsvFile := ⟨"attendance_2025-03-06.csv", [demoRowAbsent]⟩

/-- Same calendar day as `demoFile1`, overwriting day 5 for patient 123. -/
def demoFile2b : CsvFile := ⟨"attendance_2025-03-05_v2.csv", [demoRowAbsent]⟩

example :
    alistGet "123" (runFiles 3 2025 [demoFile1, demoFile2]) =
      some { last_name := "Doe", first_name := "Jane",
             admit_date := PyVal.str "01/05/2025",
             payer_source := PyVal.str "Medicaid HMO", program := "PHP", icd10 := "",
             ur_review := "PHP - Next review: 3/20",
             billing_comments := PyVal.str "ok",
             services := [(5, "PHP"), (6, "X")] } := by decide

example :
    alistGet "123" (runFiles 3 2025 [demoFile1, demoFile2b]) =
      some { last_name := "Doe", first_name := "Jane",
             admit_date := PyVal.str "01/05/2025",
             payer_source := PyVal.str "Medicaid HMO", program := "PHP", icd10 := "",
             ur_review := "PHP - Next review: 3/20",
             billing_comments := PyVal.str "ok",
             services := [(5, "X")] } := by decide

example :
    alistGet "Smith_Ann B" (runFiles 3 2025 [demoFile1, demoFile2]) =
      some { last_name := "Smith", first_name := "Ann B",
             admit_date := PyVal.str "01/10/2025",
             payer_source := PyVal.str "Aetna", program := "IOP", icd10 := "",
             ur_review := " - Next review: ", billing_comments := PyVal.str "",
             services := [(5, "IOP")] } := by decide

example :
    (process_census_files [demoFile1, demoFile2] 3 2025).toOption.bind
      (fun o => o.map Output.outputName) = some "Census_March_2025.xlsx" := by decide

example :
    (process_census_files [demoFile1] 3 2025).toOption.bind
      (fun o => o.map (fun out => out.standardRows.map Prod.fst)) =
      some ["Smith_Ann B"] := by decide

example :
    (process_census_files [demoFile1] 3 2025).toOption.bind
      (fun o => o.map (fun out => out.medicaidRows.map Prod.fst)) =
      some ["123"] := by decide

example :
    process_census_files [demoFileNanPayer] 3 2025 =
      Except.error "AttributeError: float object has no attribute lower" := by rfl

/-- A concrete aggregated record used to exercise the day-grid functions. -/
def demoRec : PatientRecord where
  last_name := "Doe"
  first_name := "Jane"
  admit_date := PyVal.str "01/05/2025"
  payer_source := PyVal.str "Medicaid HMO"
  program := "PHP"
  icd10 := ""
  ur_review := "PHP - Next review: 3/20"
  billing_comments := PyVal.str "ok"
  services := [(5, "PHP"), (6, "X")]

/-- A concrete record with a blank payer source. -/
def demoRecBlank : PatientRecord where
  last_name := "Smith"
  first_name := "Ann B"
  admit_date := PyVal.str "01/10/2025"
  payer_source := PyVal.str ""
  program := "IOP"
  icd10 := ""
  ur_review := " - Next review: "
  billing_comments := PyVal.str ""
  services := [(5, "IOP")]

/-- A concrete two-patient `patient_data` mapping. -/
def demoPD : PD := [("123", demoRec), ("Smith_Ann B", demoRecBlank)]

/-- The record for patient 123 after `demoFile1` and then `demoFile2b` (same
calendar day): static fields from the first file, day 5 overwritten by the
second. -/
def demoRecOverwritten : PatientRecord where
  last_name := "Doe"
  first_name := "Jane"
  admit_date := PyVal.str "01/05/2025"
  payer_source := PyVal.str "Medicaid HMO"
  program := "PHP"
  icd10 := ""
  ur_review := "PHP - Next review: 3/20"
  billing_comments := PyVal.str "ok"
  services := [(5, "X")]

/-- The normalized fact of `demoRowPresent`. -/
def demoFactPresent : AttendanceFact where
  unique_id := "123"
  last_name := "Doe"
  first_name := "Jane"
  admit_date := PyVal.str "01/05/2025"
  payer_source := PyVal.str "Medicaid HMO"
  program := "PHP"
  ur_review := "PHP - Next review: 3/20"
  billing_comments := PyVal.str "ok"
  service_code := "PHP"

example : normRow demoRowPresent = some demoFactPresent := by decide

/-! ## Helper lemmas -/

theorem head?_some_mem {α : Type} {l : List α} {a : α} (h : l.head? = some a) : a ∈ l := by
  cases l with
  | nil => simp at h
  | cons b t =>
    simp only [List.head?_cons, Option.some.injEq] at h
    exact h ▸ List.mem_cons_self b t

/-- Every field of a normalized fact, in terms of the source row. -/
theorem normRow_eq (r : Row) (f : AttendanceFact) (h : normRow r = some f) :
    f.unique_id = (if pyStrip ((r.mr.get).toPyStr) ≠ "" then pyStrip ((r.mr.get).toPyStr)
                   else f.last_name ++ "_" ++ f.first_name) ∧
    f.service_code = derivedService r ∧
    f.program = mappedProgram r.program ∧
    f.admit_date = r.admission.get ∧
    f.payer_source = r.payment.get ∧
    f.ur_review = (r.urLoc.get).toPyStr ++ " - Next review: "
      ++ (r.nextReview.get).toPyStr ∧
    f.billing_comments = r.comment.get := by
  unfold normRow at h
  cases hrn : r.name with
  | missing => rw [hrn] at h; exact absurd h (by simp)
  | nan => rw [hrn] at h; exact absurd h (by simp)
  | str nm =>
    rw [hrn] at h
    simp only [] at h
    split at h
    · exact absurd h (by simp)
    · split at h
      · exact absurd h (by simp)
      · obtain rfl := (Option.some.inj h).symm
        exact ⟨rfl, rfl, rfl, rfl, rfl, rfl, rfl⟩

/-- A skipped row leaves `patient_data` untouched. -/
theorem processRow_none {r : Row} (h : normRow r = none) (pd : PD) (day : Nat) :
    processRow pd day r = pd := by
  unfold processRow; rw [h]

/-- When the derived service code is empty the row is skipped. -/
theorem normRow_none_of_service {r : Row} (h : derivedService r = "") :
    normRow r = none := by
  unfold normRow
  cases hrn : r.name with
  | missing => rfl
  | nan => rfl
  | str nm =>
    simp only []
    split
    · rfl
    · simp [h]

/-! ## Claim C9: weekday banner labels -/

/-- Claim C9: for every target month and year, the weekday label written in
row 6 above day `d` is the `(d - 1) % 7`-th element of the fixed sequence
Sat, Sun, Mon, Tue, Wed, Thu, Fri, independent of the real weekday on which
day 1 of the month falls (the conclusion does not involve the month or the
year at all). -/
theorem claim_C9 (month year : Nat) (pd : PD) (d : Nat) (lbl : String)
    (h : (d, lbl) ∈ (buildOutput month year pd).dayHeaders) :
    lbl = ["Sat", "Sun", "Mon", "Tue", "Wed", "Thu", "Fri"].getD ((d - 1) % 7) "" := by
  have hmem : (d, lbl) ∈ (List.range' 1 (daysInMonth year month)).map
      (fun dd => (dd, dayOfWeekLabel dd)) := by
    simpa [buildOutput, assembleOutput] using h
  rcases List.mem_map.mp hmem with ⟨a, -, heq⟩
  injection heq with h1 h2
  subst h2
  rw [h1]
  unfold dayOfWeekLabel day_labels
  have h7 : (d - 1) % 7 < 7 := Nat.mod_lt _ (by norm_num)
  rw [show (List.replicate 5 ["Sat", "Sun", "Mon", "Tue", "Wed", "Thu", "Fri"]).flatten =
        ["Sat", "Sun", "Mon", "Tue", "Wed", "Thu", "Fri"] ++
        (List.replicate 4 ["Sat", "Sun", "Mon", "Tue", "Wed", "Thu", "Fri"]).flatten from rfl]
  rw [List.getD_append]
  simpa using h7

/-- Witness for C9 at day 1 of March 2025. -/
theorem claim_C9_witness :
    ("Sat" : String) = ["Sat", "Sun", "Mon", "Tue", "Wed", "Thu", "Fri"].getD ((1 - 1) % 7) "" :=
  claim_C9 3 2025 [] 1 "Sat" (by decide)

/-! ## Claim C5: Medicaid/Standard partition -/

/-- On the successful path (no NaN payer), the partition loop produces
exactly the two filters of `patient_data`, in iteration order. -/
theorem partitionPatients_ok (pd : PD)
    (h : ∀ e ∈ pd, e.2.payer_source ≠ PyVal.nanFloat) :
    partitionPatients pd = Except.ok (standard_patients pd, medicaid_patients pd) := by
  induction pd with
  | nil => rfl
  | cons e rest ih =>
    have he := h e (List.mem_cons_self e rest)
    obtain ⟨s, hs⟩ : ∃ s, e.2.payer_source = PyVal.str s := by
      cases hps : e.2.payer_source with
      | str s => exact ⟨s, rfl⟩
      | nanFloat => exact absurd hps he
    have ih2 := ih (fun g hg => h g (List.mem_cons_of_mem e hg))
    unfold partitionPatients
    rw [hs]
    simp only [PyVal.lower]
    rw [ih2]
    by_cases hm : containsList (pyLower s).data "medicaid".data = true
    · have him : isMedicaid e.2 = true := by
        unfold isMedicaid
        rw [hs]
        exact hm
      simp [standard_patients, medicaid_patients, List.filter_cons, him, hm]
    · have him : isMedicaid e.2 = false := by
        unfold isMedicaid
        rw [hs]
        simpa using hm
      simp [standard_patients, medicaid_patients, List.filter_cons, him, hm]

/-- A record with a NaN payer source makes the partition loop raise. -/
theorem partitionPatients_error (pd : PD) (e : String × PatientRecord)
    (he : e ∈ pd) (hnan : e.2.payer_source = PyVal.nanFloat) :
    ∃ m, partitionPatients pd = Except.error m := by
  induction pd with
  | nil => exact absurd he (by simp)
  | cons x rest ih =>
    cases hx : (x.2.payer_source).lower with
    | error m =>
      refine ⟨m, ?_⟩
      unfold partitionPatients
      rw [hx]
    | ok payer =>
      have hxs : x.2.payer_source ≠ PyVal.nanFloat := by
        intro hh
        rw [hh] at hx
        simp [PyVal.lower] at hx
      have herest : e ∈ rest := by
        rcases List.mem_cons.mp he with h1 | h1
        · exfalso
          rw [h1] at hnan
          exact hxs hnan
        · exact h1
      obtain ⟨m, hm⟩ := ih herest
      refine ⟨m, ?_⟩
      unfold partitionPatients
      rw [hx, hm]

/-- Claim C5 (amended): when every aggregated record's payer source is a
string (the Payment Method cell was never NaN), the partition loop succeeds
and every entry lands in exactly one of the Standard and Medicaid groups,
the Medicaid group being exactly the entries whose payer string passes the
case-insensitive `medicaid` substring test, with a blank payer string going
to the Standard group.  But when some record's payer source is the float
NaN (an empty Payment Method cell in an existing column), line 400 raises
an uncaught AttributeError: the run aborts and no grouping is produced. -/
theorem claim_C5 (pd : PD) :
    ((∀ e ∈ pd, e.2.payer_source ≠ PyVal.nanFloat) →
      partitionPatients pd = Except.ok (standard_patients pd, medicaid_patients pd)) ∧
    (∀ e ∈ pd,
      (e ∈ standard_patients pd ∨ e ∈ medicaid_patients pd) ∧
      ¬(e ∈ standard_patients pd ∧ e ∈ medicaid_patients pd) ∧
      (e ∈ medicaid_patients pd ↔ isMedicaid e.2 = true) ∧
      (e ∈ standard_patients pd ↔ ¬ isMedicaid e.2 = true) ∧
      (∀ s, e.2.payer_source = PyVal.str s →
        isMedicaid e.2 = containsList (pyLower s).data "medicaid".data) ∧
      (e.2.payer_source = PyVal.str "" → e ∈ standard_patients pd)) ∧
    (∀ e ∈ pd, e.2.payer_source = PyVal.nanFloat →
      ∃ m, partitionPatients pd = Except.error m) := by
  refine ⟨partitionPatients_ok pd, ?_,
    fun e he hn => partitionPatients_error pd e he hn⟩
  intro e he
  have hs : e ∈ standard_patients pd ↔ isMedicaid e.2 = false := by
    simp [standard_patients, List.mem_filter, he]
  have hm : e ∈ medicaid_patients pd ↔ isMedicaid e.2 = true := by
    simp [medicaid_patients, List.mem_filter, he]
  have hstr : ∀ s, e.2.payer_source = PyVal.str s →
      isMedicaid e.2 = containsList (pyLower s).data "medicaid".data := by
    intro s hp
    unfold isMedicaid
    rw [hp]
  have hblank : e.2.payer_source = PyVal.str "" → isMedicaid e.2 = false := by
    intro hp
    unfold isMedicaid
    rw [hp]
    decide
  refine ⟨?_, ?_, hm, ?_, hstr, fun hp => hs.mpr (hblank hp)⟩
  · cases hb : isMedicaid e.2
    · exact Or.inl (hs.mpr hb)
    · exact Or.inr (hm.mpr hb)
  · rintro ⟨h1, h2⟩
    rw [hs] at h1
    rw [hm] at h2
    rw [h1] at h2
    exact absurd h2 (by decide)
  · rw [hs]
    simp

/-- Witness for C5: the demo aggregate (all string payers) partitions into
the two filter groups, and the blank-payer demo entry is in the Standard
group. -/
theorem claim_C5_witness :
    partitionPatients demoPD =
      Except.ok (standard_patients demoPD, medicaid_patients demoPD) ∧
    (("Smith_Ann B", demoRecBlank) ∈ standard_patients demoPD ∨
      ("Smith_Ann B", demoRecBlank) ∈ medicaid_patients demoPD) :=
  ⟨(claim_C5 demoPD).1 (by decide),
   ((claim_C5 demoPD).2.1 ("Smith_Ann B", demoRecBlank) (by decide)).1⟩

/-- Counterexample to C5 as stated: an aggregated record whose payer source
is the float NaN (empty Payment Method cell) is placed in NO group — the
partition loop raises the uncaught AttributeError of line 400 and the whole
run aborts with an exception instead of producing a document. -/
theorem claim_C5_counterexample :
    (alistGet "123" (runFiles 3 2025 [demoFileNanPayer])).map
        PatientRecord.payer_source = some PyVal.nanFloat ∧
    partitionPatients (runFiles 3 2025 [demoFileNanPayer]) =
      Except.error "AttributeError: float object has no attribute lower" ∧
    process_census_files [demoFileNanPayer] 3 2025 =
      Except.error "AttributeError: float object has no attribute lower" := by
  refine ⟨by decide, by rfl, by rfl⟩

/-! ## Claim C2: service-code derivation -/

/-- A Python string comparison is true exactly for that string value. -/
theorem PyVal.eqStr_true {v : PyVal} {t : String} :
    v.eqStr t = true ↔ v = PyVal.str t := by
  cases v <;> simp [PyVal.eqStr]

/-- Claim C2: for every normalized row the derived service code is the
mapped program when the status value is the string `Present` and the mapped
program is non-empty, the fixed code `X` when the status value is the
string `Absent`, and in every other case no service is recorded: the row is
skipped and `patient_data` (hence any day map in it) is left unchanged. -/
theorem claim_C2 (r : Row) (pd : PD) (day : Nat) :
    ((r.status.get).eqStr "Present" = true ∧ mappedProgram r.program ≠ "" →
      derivedService r = mappedProgram r.program ∧
      ∀ f, normRow r = some f → f.service_code = mappedProgram r.program) ∧
    ((r.status.get).eqStr "Absent" = true →
      derivedService r = "X" ∧ ∀ f, normRow r = some f → f.service_code = "X") ∧
    (¬((r.status.get).eqStr "Present" = true ∧ mappedProgram r.program ≠ "") →
      (r.status.get).eqStr "Absent" = false →
      derivedService r = "" ∧ normRow r = none ∧ processRow pd day r = pd) := by
  refine ⟨?_, ?_, ?_⟩
  · intro hc
    have hd : derivedService r = mappedProgram r.program := by
      simp only [derivedService]
      rw [if_pos hc]
    exact ⟨hd, fun f hf => ((normRow_eq r f hf).2.1).trans hd⟩
  · intro hA
    have hnp : ¬((r.status.get).eqStr "Present" = true ∧
        mappedProgram r.program ≠ "") := by
      rintro ⟨h1, -⟩
      rw [PyVal.eqStr_true] at h1 hA
      rw [h1] at hA
      exact absurd (PyVal.str.inj hA) (by decide)
    have hd : derivedService r = "X" := by
      simp only [derivedService]
      rw [if_neg hnp, if_pos hA]
    exact ⟨hd, fun f hf => ((normRow_eq r f hf).2.1).trans hd⟩
  · intro h1 h2
    have hd : derivedService r = "" := by
      simp only [derivedService]
      rw [if_neg h1, if_neg (by simp [h2])]
    exact ⟨hd, normRow_none_of_service hd,
      processRow_none (normRow_none_of_service hd) pd day⟩

/-- Witness for C2: the demo rows get codes `PHP` and `X`, and a row whose
mapped program is empty (status `Present` but no Program column) yields no
service and leaves the state untouched. -/
theorem claim_C2_witness :
    derivedService demoRowPresent = mappedProgram demoRowPresent.program ∧
    derivedService demoRowAbsent = "X" ∧
    processRow demoPD 5 demoRowShortName = demoPD :=
  ⟨((claim_C2 demoRowPresent [] 5).1 (by decide)).1,
   ((claim_C2 demoRowAbsent [] 5).2.1 (by decide)).1,
   ((claim_C2 demoRowShortName demoPD 5).2.2 (by decide) (by decide)).2.2⟩

/-! ## Claim C7: identity key preference -/

/-- Claim C7 (amended): line 112 computes `str(row.get('MR', '')).strip()`,
so the identity key is that stripped string whenever it is non-blank —
including the literal string `nan` that `str()` produces from an empty
(NaN) MR cell in an existing MR column — and only when it is blank (MR
column absent, or an empty or whitespace MR string) does the key fall back
to the composite `{last_name}_{first_name}`. -/
theorem claim_C7 (r : Row) (f : AttendanceFact) (h : normRow r = some f) :
    (pyStrip ((r.mr.get).toPyStr) ≠ "" → f.unique_id = pyStrip ((r.mr.get).toPyStr)) ∧
    (pyStrip ((r.mr.get).toPyStr) = "" →
      f.unique_id = f.last_name ++ "_" ++ f.first_name) ∧
    (r.mr = Cell.missing → f.unique_id = f.last_name ++ "_" ++ f.first_name) ∧
    (r.mr = Cell.nan → f.unique_id = "nan") := by
  obtain ⟨hu, -⟩ := normRow_eq r f h
  refine ⟨?_, ?_, ?_, ?_⟩
  · intro hmr
    rw [hu, if_pos hmr]
  · intro hmr
    rw [hu, if_neg (not_not_intro hmr)]
  · intro hrm
    have hmr : pyStrip ((r.mr.get).toPyStr) = "" := by
      rw [hrm]
      decide
    rw [hu, if_neg (not_not_intro hmr)]
  · intro hrm
    have hmr : pyStrip ((r.mr.get).toPyStr) = "nan" := by
      rw [hrm]
      decide
    have hne : pyStrip ((r.mr.get).toPyStr) ≠ "" := by
      rw [hmr]
      decide
    rw [hu, if_pos hne, hmr]

/-- Witness for C7: the demo row with a string MR uses it as the key; the
demo row with no MR column uses the composite key. -/
theorem claim_C7_witness :
    demoFactPresent.unique_id = pyStrip ((demoRowPresent.mr.get).toPyStr) :=
  (claim_C7 demoRowPresent demoFactPresent (by decide)).1 (by decide)

/-- Counterexample to C7 as stated: a row whose MR cell is empty (pandas
NaN) in an existing MR column does NOT fall through to the name-based
composite key — `str(nan)` is the non-blank string `nan`, which becomes the
identity key instead of `Doe_Jane`. -/
theorem claim_C7_counterexample :
    demoRowNanMr.mr = Cell.nan ∧
    (normRow demoRowNanMr).map AttendanceFact.unique_id = some "nan" ∧
    (normRow demoRowNanMr).map
      (fun f0 => f0.last_name ++ "_" ++ f0.first_name) = some "Doe_Jane" ∧
    ("nan" : String) ≠ "Doe_Jane" := by
  refine ⟨rfl, by decide, by decide, by decide⟩

/-! ## Claim C8: day-cell highlighting -/

/-- Claim C8: in an emitted patient row, the cell of day `day` holds that
day's service code (empty when absent from the day map) and carries the
highlight fill exactly when the code is non-empty, differs from `X`, and
does not start with `X`; in particular an `X` cell and an empty cell are
never highlighted. -/
theorem claim_C8 (days_in_month : Nat) (p : PatientRecord) (day : Nat)
    (h1 : 1 ≤ day) (h2 : day ≤ days_in_month) :
    ∃ c : DayCell, (dayCells days_in_month p)[day - 1]? = some c ∧
      c.value = (alistGet day p.services).getD "" ∧
      (c.highlighted = true ↔
        c.value ≠ "" ∧ c.value ≠ "X" ∧ startsWithList c.value.data ['X'] = false) ∧
      (c.value = "X" → c.highlighted = false) ∧
      (c.value = "" → c.highlighted = false) := by
  have hlt : day - 1 < days_in_month := by omega
  have hr : (List.range' 1 days_in_month)[day - 1]? = some (1 + 1 * (day - 1)) :=
    List.getElem?_range' 1 1 hlt
  have hday : 1 + 1 * (day - 1) = day := by omega
  rw [hday] at hr
  have hcell : (dayCells days_in_month p)[day - 1]? = some
      { value := (alistGet day p.services).getD "",
        highlighted := decide ((alistGet day p.services).getD "" ≠ "" ∧
          (alistGet day p.services).getD "" ≠ "X" ∧
          startsWithList ((alistGet day p.services).getD "").data ['X'] = false) } := by
    unfold dayCells
    rw [List.getElem?_map, hr]
    rfl
  refine ⟨_, hcell, rfl, decide_eq_true_iff, ?_, ?_⟩ <;>
    (generalize (alistGet day p.services).getD "" = s
     intro hx
     rw [show ((⟨s, _⟩ : DayCell)).value = s from rfl] at hx
     subst hx
     decide)

/-- Witness for C8 at day 6 of the demo record, whose code is `X`. -/
theorem claim_C8_witness :
    1 ≤ 6 ∧ 6 ≤ 31 ∧
    ∃ c : DayCell, (dayCells 31 demoRec)[6 - 1]? = some c ∧
      c.value = (alistGet 6 demoRec.services).getD "" ∧
      (c.highlighted = true ↔
        c.value ≠ "" ∧ c.value ≠ "X" ∧ startsWithList c.value.data ['X'] = false) ∧
      (c.value = "X" → c.highlighted = false) ∧
      (c.value = "" → c.highlighted = false) :=
  ⟨by decide, by decide, claim_C8 31 demoRec 6 (by decide) (by decide)⟩

/-! ## Claim C3: filename date extraction -/

/-- Every month value produced by the `%m` alternatives lies in 1..12. -/
theorem monthAlts_mem_bounds {cs : List Char} {x : Nat × List Char}
    (hx : x ∈ monthAlts cs) : 1 ≤ x.1 ∧ x.1 ≤ 12 := by
  have h48 : ('0' : Char).toNat = 48 := rfl
  have h49 : ('1' : Char).toNat = 49 := rfl
  unfold monthAlts at hx
  rcases List.mem_append.mp hx with h | h
  · cases cs with
    | nil => simp [monthTwoDigitAlts] at h
    | cons c1 tl =>
      cases tl with
      | nil => simp [monthTwoDigitAlts] at h
      | cons c2 rest =>
        simp only [monthTwoDigitAlts] at h
        rcases List.mem_append.mp h with h1 | h1
        · split_ifs at h1 with hc
          · obtain ⟨hc1, hlo, hhi⟩ := hc
            subst hc1
            simp only [List.mem_singleton] at h1
            subst h1
            simp only [digitsVal, List.foldl_cons, List.foldl_nil]
            omega
          · simp at h1
        · split_ifs at h1 with hc
          · obtain ⟨hc1, hlo, hhi⟩ := hc
            subst hc1
            simp only [List.mem_singleton] at h1
            subst h1
            simp only [digitsVal, List.foldl_cons, List.foldl_nil]
            omega
          · simp at h1
  · cases cs with
    | nil => simp [oneDigitAlt] at h
    | cons c1 tl =>
      simp only [oneDigitAlt] at h
      split_ifs at h with hc
      · obtain ⟨hlo, hhi⟩ := hc
        simp only [List.mem_singleton] at h
        subst h
        simp only [digitsVal, List.foldl_cons, List.foldl_nil]
        omega
      · simp at h

/-- Soundness of the `strptime` model: a parsed result is a valid calendar
date with year at least 1. -/
theorem strptimeYmd_sound (s : String) (y m d : Nat)
    (h : strptimeYmd s = some (y, m, d)) :
    1 ≤ y ∧ 1 ≤ m ∧ m ≤ 12 ∧ 1 ≤ d ∧ d ≤ daysInMonth y m := by
  unfold strptimeYmd at h
  split at h
  · exact absurd h (by simp)
  · split at h
    · rcases Option.bind_eq_some.mp h with ⟨ymd, hhead, hval⟩
      split_ifs at hval with hcond
      · obtain rfl := Option.some.inj hval
        rcases List.mem_filterMap.mp (head?_some_mem hhead) with ⟨ma, hma, hFma⟩
        split at hFma
        · rcases List.mem_filterMap.mp (head?_some_mem hFma) with ⟨da, -, hGda⟩
          split_ifs at hGda
          · have h3 := Option.some.inj hGda
            have hm : ma.1 = m := congrArg (fun t => t.2.1) h3
            obtain ⟨hm1, hm2⟩ := monthAlts_mem_bounds hma
            rw [hm] at hm1 hm2
            exact ⟨hcond.1, hm1, hm2, hcond.2.1, hcond.2.2⟩
        · exact absurd hFma (by simp)
    · exact absurd h (by simp)

/-- A file whose name yields no parsed date is skipped: the state is
unchanged. -/
theorem processFile_skip_none {f : CsvFile} (month year : Nat) (pd : PD)
    (h : extract_file_date f.filename = none) :
    processFile month year pd f = pd := by
  unfold processFile
  rw [h]

/-- A file whose parsed date misses the target month or year is skipped. -/
theorem processFile_skip_mismatch {f : CsvFile} (month year : Nat) (pd : PD)
    {y m d : Nat} (h : extract_file_date f.filename = some (y, m, d))
    (hmm : m ≠ month ∨ y ≠ year) :
    processFile month year pd f = pd := by
  unfold processFile
  rw [h]
  simp only [if_pos hmm]

/-- A file failing the `fileMatches` test is skipped. -/
theorem processFile_skip {f : CsvFile} (month year : Nat) (pd : PD)
    (h : fileMatches month year f = false) :
    processFile month year pd f = pd := by
  unfold fileMatches at h
  split at h
  · exact processFile_skip_none month year pd (by assumption)
  · rename_i y m d heq
    simp only [Bool.and_eq_false_iff, decide_eq_false_iff_not] at h
    exact processFile_skip_mismatch month year pd heq (by tauto)

/-- Claim C3 (amended): the extractor succeeds exactly when the leftmost
regex token, after replacing `_` by `-`, parses in the strictly
hyphen-separated `%Y-%m-%d` form as a valid calendar date.  Fully separated
tokens with a valid date succeed; a separator-free token such as `20250305`
is found by the regex search but fails the parse, so the file is skipped;
any extracted date is a valid calendar date; and extraction failure or a
month/year mismatch merely skips the file (non-fatally), leaving the state
unchanged. -/
theorem claim_C3 :
    (∀ name tok, searchDateToken name.data = some tok →
       extract_file_date name =
         strptimeYmd ⟨tok.data.map (fun c => if c = '_' then '-' else c)⟩) ∧
    (∀ name, searchDateToken name.data = none → extract_file_date name = none) ∧
    (∀ name y m d, extract_file_date name = some (y, m, d) →
       1 ≤ y ∧ 1 ≤ m ∧ m ≤ 12 ∧ 1 ≤ d ∧ d ≤ daysInMonth y m) ∧
    extract_file_date "attendance_2025-03-05.csv" = some (2025, 3, 5) ∧
    extract_file_date "attendance_2025_03_05.csv" = some (2025, 3, 5) ∧
    searchDateToken "attendance_20250305.csv".data = some "20250305" ∧
    extract_file_date "attendance_20250305.csv" = none ∧
    (∀ month year pd f, extract_file_date (CsvFile.filename f) = none →
       processFile month year pd f = pd) ∧
    (∀ month year pd f y m d, extract_file_date (CsvFile.filename f) = some (y, m, d) →
       m ≠ month ∨ y ≠ year → processFile month year pd f = pd) := by
  refine ⟨?_, ?_, ?_, by decide, by decide, by decide, by decide, ?_, ?_⟩
  · intro name tok h
    unfold extract_file_date
    rw [h]
  · intro name h
    unfold extract_file_date
    rw [h]
  · intro name y m d h
    unfold extract_file_date at h
    split at h
    · exact absurd h (by simp)
    · exact strptimeYmd_sound _ y m d h
  · intro month year pd f h
    exact processFile_skip_none month year pd h
  · intro month year pd f y m d h hmm
    exact processFile_skip_mismatch month year pd h hmm

/-- Witness for C3: instantiating the universally quantified parts on the
demo files. -/
theorem claim_C3_witness :
    processFile 3 2025 [] ⟨"nodate.csv", [demoRowPresent]⟩ = [] ∧
    processFile 3 2025 [] ⟨"attendance_2025-04-05.csv", [demoRowPresent]⟩ = [] :=
  ⟨claim_C3.2.2.2.2.2.2.2.1 3 2025 [] ⟨"nodate.csv", [demoRowPresent]⟩ (by decide),
   claim_C3.2.2.2.2.2.2.2.2 3 2025 [] ⟨"attendance_2025-04-05.csv", [demoRowPresent]⟩
     2025 4 5 (by decide) (by decide)⟩

/-- Counterexample to C3 as stated: the claim asserts that a separator-free
8-digit token such as `20250305` is extracted and parsed.  The token is
indeed found by the regex search, and the same date parses when written with
separators, yet the extractor fails on the separator-free name, so the file
is excluded. -/
theorem claim_C3_counterexample :
    searchDateToken "attendance_20250305.csv".data = some "20250305" ∧
    strptimeYmd "2025-03-05" = some (2025, 3, 5) ∧
    extract_file_date "attendance_20250305.csv" = none := by
  refine ⟨by decide, by decide, by decide⟩

/-! ## Claim C1: behavior when nothing matches -/

/-- Folding over files that all fail the date gates leaves the state
unchanged. -/
theorem foldl_processFile_skip (month year : Nat) (files : List CsvFile) (pd : PD)
    (h : ∀ f ∈ files, fileMatches month year f = false) :
    files.foldl (processFile month year) pd = pd := by
  induction files generalizing pd with
  | nil => rfl
  | cons f fs ih =>
    simp only [List.foldl_cons]
    rw [processFile_skip month year pd (h f (List.mem_cons_self f fs))]
    exact ih pd (fun g hg => h g (List.mem_cons_of_mem f hg))

/-- Claim C1 (amended): if the input folder holds no CSV files at all, no
document is produced and no exception is raised; but if CSV files exist and
merely none of them matches the target month/year, a document is still
produced — the aggregate is empty, the partition trivially succeeds, and
the document has no patient rows in either group and no Medicaid divider.
(The original claim, that no document is produced whenever zero files
match, fails on the second case.) -/
theorem claim_C1 (month year : Nat) :
    process_census_files [] month year = Except.ok none ∧
    (∀ files, files ≠ [] → (∀ f ∈ files, fileMatches month year f = false) →
       runFiles month year files = [] ∧
       process_census_files files month year =
         Except.ok (some (buildOutput month year []))) ∧
    (buildOutput month year []).standardRows = [] ∧
    (buildOutput month year []).medicaidRows = [] ∧
    (buildOutput month year []).hasMedicaidDivider = false := by
  refine ⟨rfl, ?_, rfl, rfl, rfl⟩
  intro files hne hskip
  have hrun : runFiles month year files = [] :=
    foldl_processFile_skip month year files [] hskip
  refine ⟨hrun, ?_⟩
  unfold process_census_files
  rw [if_neg (by simpa using hne), hrun]
  rfl

/-- Witness for C1: one April file under a March 2025 run contributes
nothing, yet a document is produced. -/
theorem claim_C1_witness :
    runFiles 3 2025 [⟨"attendance_2025-04-05.csv", [demoRowPresent]⟩] = [] ∧
    process_census_files [⟨"attendance_2025-04-05.csv", [demoRowPresent]⟩] 3 2025 =
      Except.ok (some (buildOutput 3 2025 [])) :=
  (claim_C1 3 2025).2.1 [⟨"attendance_2025-04-05.csv", [demoRowPresent]⟩]
    (by decide) (by decide)

/-- Counterexample to C1 as stated: a folder holding one CSV file whose
filename date (April 2025) does not match the target month (March 2025)
still produces a document, though the claim says none should be produced. -/
theorem claim_C1_counterexample :
    fileMatches 3 2025 ⟨"attendance_2025-04-05.csv", []⟩ = false ∧
    process_census_files [⟨"attendance_2025-04-05.csv", []⟩] 3 2025 =
      Except.ok (some (buildOutput 3 2025 [])) ∧
    process_census_files [⟨"attendance_2025-04-05.csv", []⟩] 3 2025 ≠
      Except.ok none := by
  refine ⟨by decide, by rfl, ?_⟩
  intro h
  rw [show process_census_files [⟨"attendance_2025-04-05.csv", []⟩] 3 2025 =
      Except.ok (some (buildOutput 3 2025 [])) from rfl] at h
  exact Option.noConfusion (Except.ok.inj h)

/-! ## Claim C4: aggregation invariants -/

theorem alistGet_append {α β : Type} [DecidableEq α] (k : α) (l1 l2 : List (α × β)) :
    alistGet k (l1 ++ l2) = (alistGet k l1).or (alistGet k l2) := by
  induction l1 with
  | nil => simp [alistGet]
  | cons e rest ih =>
    obtain ⟨k1, v⟩ := e
    by_cases h : k1 = k <;> simp [alistGet, h, ih]

theorem alistGet_map_update {α β : Type} [DecidableEq α] (k0 : α) (g : β → β)
    (l : List (α × β)) (k : α) :
    alistGet k (l.map (fun e => if e.1 = k0 then (e.1, g e.2) else e)) =
      if k = k0 then (alistGet k l).map g else alistGet k l := by
  induction l with
  | nil => simp [alistGet]
  | cons e rest ih =>
    obtain ⟨k1, v⟩ := e
    simp only [List.map_cons]
    by_cases h0 : k1 = k0
    · rw [if_pos h0]
      by_cases h1 : k1 = k
      · subst h1
        subst h0
        simp [alistGet]
      · rw [show alistGet k ((k1, g v) :: List.map (fun e => if e.1 = k0 then (e.1, g e.2) else e) rest)
            = alistGet k (List.map (fun e => if e.1 = k0 then (e.1, g e.2) else e) rest) from by
          simp [alistGet, h1]]
        rw [show alistGet k ((k1, v) :: rest) = alistGet k rest from by simp [alistGet, h1]]
        exact ih
    · rw [if_neg h0]
      by_cases h1 : k1 = k
      · subst h1
        rw [show alistGet k1 ((k1, v) :: List.map (fun e => if e.1 = k0 then (e.1, g e.2) else e) rest)
            = some v from by simp [alistGet]]
        rw [show alistGet k1 ((k1, v) :: rest) = some v from by simp [alistGet]]
        rw [if_neg (fun hh : k1 = k0 => h0 hh)]
      · rw [show alistGet k ((k1, v) :: List.map (fun e => if e.1 = k0 then (e.1, g e.2) else e) rest)
            = alistGet k (List.map (fun e => if e.1 = k0 then (e.1, g e.2) else e) rest) from by
          simp [alistGet, h1]]
        rw [show alistGet k ((k1, v) :: rest) = alistGet k rest from by simp [alistGet, h1]]
        exact ih

theorem alistGet_setDay (svcs : List (Nat × String)) (d : Nat) (c : String) (k : Nat) :
    alistGet k (setDay svcs d c) = if k = d then some c else alistGet k svcs := by
  unfold setDay
  by_cases hex : (alistGet d svcs).isSome = true
  · rw [if_pos hex]
    rw [alistGet_map_update d (fun _ => c) svcs k]
    by_cases hk : k = d
    · subst hk
      obtain ⟨v, hv⟩ := Option.isSome_iff_exists.mp hex
      rw [if_pos rfl, if_pos rfl, hv]
      rfl
    · rw [if_neg hk, if_neg hk]
  · rw [if_neg hex]
    have hnone : alistGet d svcs = none := Option.not_isSome_iff_eq_none.mp hex
    rw [alistGet_append]
    by_cases hk : k = d
    · subst hk
      rw [hnone]
      simp [alistGet]
    · rw [show alistGet k [(d, c)] = none from by simp [alistGet, Ne.symm hk]]
      rw [if_neg hk]
      exact Option.or_none

theorem alistGet_insertFact (pd : PD) (day : Nat) (f : AttendanceFact) (k : String) :
    alistGet k (insertFact pd day f) =
      if k = f.unique_id then
        (match alistGet k pd with
         | some rec => some { rec with services := setDay rec.services day f.service_code }
         | none => some { last_name := f.last_name, first_name := f.first_name,
                          admit_date := f.admit_date, payer_source := f.payer_source,
                          program := f.program, icd10 := "", ur_review := f.ur_review,
                          billing_comments := f.billing_comments,
                          services := setDay [] day f.service_code })
      else alistGet k pd := by
  simp only [insertFact]
  by_cases hex : (alistGet f.unique_id pd).isSome = true
  · rw [if_pos hex]
    rw [alistGet_map_update f.unique_id
      (fun rec : PatientRecord => { rec with services := setDay rec.services day f.service_code })
      pd k]
    by_cases hk : k = f.unique_id
    · subst hk
      obtain ⟨rec, hrec⟩ := Option.isSome_iff_exists.mp hex
      rw [if_pos rfl, if_pos rfl, hrec]
      rfl
    · rw [if_neg hk, if_neg hk]
  · rw [if_neg hex]
    have hnone : alistGet f.unique_id pd = none := Option.not_isSome_iff_eq_none.mp hex
    rw [alistGet_map_update f.unique_id
      (fun rec : PatientRecord => { rec with services := setDay rec.services day f.service_code })
      _ k]
    by_cases hk : k = f.unique_id
    · subst hk
      rw [if_pos rfl, if_pos rfl, alistGet_append, hnone]
      simp [alistGet]
    · rw [if_neg hk, if_neg hk, alistGet_append]
      rw [show ∀ v : PatientRecord, alistGet k [(f.unique_id, v)] = none from fun v => by
        simp [alistGet, Ne.symm hk]]
      exact Option.or_none

/-- If no item establishes the identity, no item writes a day for it. -/
theorem lastWrite_none_of_firstFact_none {uid : String} {items : List (Nat × Row)}
    (h : firstFact uid items = none) (day : Nat) :
    lastWrite uid day items = none := by
  induction items with
  | nil => rfl
  | cons it rest ih =>
    cases hn : normRow it.2 with
    | none =>
      have h2 : firstFact uid rest = none := by
        have := h
        unfold firstFact at this
        rw [List.findSome?_cons] at this
        simp only [hn] at this
        exact this
      have ih2 := ih h2
      unfold lastWrite at ih2 ⊢
      rw [List.filterMap_cons]
      simp only [hn]
      exact ih2
    | some f =>
      by_cases hq : f.unique_id = uid
      · exfalso
        unfold firstFact at h
        rw [List.findSome?_cons] at h
        simp [hn, hq] at h
      · have h2 : firstFact uid rest = none := by
          have := h
          unfold firstFact at this
          rw [List.findSome?_cons] at this
          simp only [hn, if_neg hq] at this
          exact this
        have ih2 := ih h2
        unfold lastWrite at ih2 ⊢
        rw [List.filterMap_cons]
        simp only [hn]
        rw [if_neg (by simp [hq])]
        exact ih2

/-- Looking up an identity already present after folding in a fact for it. -/
theorem alistGet_insertFact_present (pd : PD) (day : Nat) (f : AttendanceFact)
    {k : String} {rec : PatientRecord} (h : alistGet k pd = some rec)
    (hk : k = f.unique_id) :
    alistGet k (insertFact pd day f) =
      some { rec with services := setDay rec.services day f.service_code } := by
  rw [alistGet_insertFact, if_pos hk, h]

/-- Looking up a fresh identity after folding in a fact for it: the static
fields come from the fact, the day map starts from scratch. -/
theorem alistGet_insertFact_absent (pd : PD) (day : Nat) (f : AttendanceFact)
    {k : String} (h : alistGet k pd = none) (hk : k = f.unique_id) :
    alistGet k (insertFact pd day f) =
      some { last_name := f.last_name, first_name := f.first_name,
             admit_date := f.admit_date, payer_source := f.payer_source,
             program := f.program, icd10 := "", ur_review := f.ur_review,
             billing_comments := f.billing_comments,
             services := setDay [] day f.service_code } := by
  rw [alistGet_insertFact, if_pos hk, h]

/-- Folding in a fact for another identity does not disturb a lookup. -/
theorem alistGet_insertFact_other (pd : PD) (day : Nat) (f : AttendanceFact)
    {k : String} (hk : ¬k = f.unique_id) :
    alistGet k (insertFact pd day f) = alistGet k pd := by
  rw [alistGet_insertFact, if_neg hk]

/-- The aggregation invariant: an identity is present in the folded
`patient_data` exactly when some item establishes it; its static fields come
from the first establishing fact, and each day of its service map holds the
last write for that identity and day. -/
theorem foldPairs_invariant (items : List (Nat × Row)) (uid : String) :
    ((alistGet uid (foldPairs items)).isSome ↔ (firstFact uid items).isSome) ∧
    (∀ rec, alistGet uid (foldPairs items) = some rec →
      ∃ d0 f0, firstFact uid items = some (d0, f0) ∧
        rec.last_name = f0.last_name ∧ rec.first_name = f0.first_name ∧
        rec.admit_date = f0.admit_date ∧ rec.payer_source = f0.payer_source ∧
        rec.program = f0.program ∧ rec.icd10 = "" ∧ rec.ur_review = f0.ur_review ∧
        rec.billing_comments = f0.billing_comments ∧
        ∀ day, alistGet day rec.services = lastWrite uid day items) := by
  induction items using List.reverseRecOn with
  | nil =>
    constructor
    · simp [foldPairs, firstFact, alistGet]
    · intro rec h
      simp [foldPairs, alistGet] at h
  | append_singleton items it ih =>
    obtain ⟨ihIff, ihRec⟩ := ih
    have hfold : foldPairs (items ++ [it]) = processRow (foldPairs items) it.1 it.2 := by
      simp [foldPairs, List.foldl_append]
    cases hn : normRow it.2 with
    | none =>
      have h1 : processRow (foldPairs items) it.1 it.2 = foldPairs items :=
        processRow_none hn _ _
      have h2 : firstFact uid (items ++ [it]) = firstFact uid items := by
        unfold firstFact
        rw [List.findSome?_append]
        simp [hn]
      have h3 : ∀ day, lastWrite uid day (items ++ [it]) = lastWrite uid day items := by
        intro day
        unfold lastWrite
        rw [List.filterMap_append]
        simp [hn]
      rw [hfold, h1, h2]
      refine ⟨ihIff, fun rec hr => ?_⟩
      obtain ⟨d0, f0, hf, e1, e2, e3, e4, e5, e6, e7, e8, hdays⟩ := ihRec rec hr
      exact ⟨d0, f0, hf, e1, e2, e3, e4, e5, e6, e7, e8,
        fun day => (hdays day).trans (h3 day).symm⟩
    | some f =>
      have hfold2 : foldPairs (items ++ [it]) = insertFact (foldPairs items) it.1 f := by
        rw [hfold]
        unfold processRow
        rw [hn]
      by_cases hq : f.unique_id = uid
      · have hlw : ∀ day, lastWrite uid day (items ++ [it]) =
            if it.1 = day then some f.service_code else lastWrite uid day items := by
          intro day
          unfold lastWrite
          rw [List.filterMap_append]
          by_cases hd : it.1 = day
          · simp [hn, hq, hd]
          · simp [hn, hq, hd]
        cases hpd : alistGet uid (foldPairs items) with
        | some rec0 =>
          obtain ⟨d0, f0, hf, e1, e2, e3, e4, e5, e6, e7, e8, hdays⟩ := ihRec rec0 hpd
          have hins := alistGet_insertFact_present (foldPairs items) it.1 f hpd hq.symm
          have hfftot : firstFact uid (items ++ [it]) = some (d0, f0) := by
            unfold firstFact at hf ⊢
            rw [List.findSome?_append, hf]
            rfl
          rw [hfold2, hins, hfftot]
          constructor
          · simp
          · intro rec hr
            obtain rfl := Option.some.inj hr
            refine ⟨d0, f0, rfl, e1, e2, e3, e4, e5, e6, e7, e8, ?_⟩
            intro day
            change alistGet day (setDay rec0.services it.1 f.service_code) = _
            rw [alistGet_setDay, hlw day]
            by_cases hd : it.1 = day
            · rw [if_pos hd.symm, if_pos hd]
            · rw [if_neg (fun hh => hd hh.symm), if_neg hd]
              exact hdays day
        | none =>
          have hffnone : firstFact uid items = none := by
            rw [hpd] at ihIff
            simp only [Option.isSome_none, Bool.false_eq_true, false_iff] at ihIff
            exact Option.not_isSome_iff_eq_none.mp ihIff
          have hins := alistGet_insertFact_absent (foldPairs items) it.1 f hpd hq.symm
          have hfftot : firstFact uid (items ++ [it]) = some (it.1, f) := by
            unfold firstFact at hffnone ⊢
            rw [List.findSome?_append, hffnone]
            simp [hn, hq]
          rw [hfold2, hins, hfftot]
          constructor
          · simp
          · intro rec hr
            obtain rfl := Option.some.inj hr
            refine ⟨it.1, f, rfl, rfl, rfl, rfl, rfl, rfl, rfl, rfl, rfl, ?_⟩
            intro day
            change alistGet day (setDay [] it.1 f.service_code) = _
            rw [alistGet_setDay, hlw day,
              lastWrite_none_of_firstFact_none hffnone day]
            by_cases hd : it.1 = day
            · rw [if_pos hd.symm, if_pos hd]
            · rw [if_neg (fun hh => hd hh.symm), if_neg hd]
              rfl
      · have hff2 : firstFact uid (items ++ [it]) = firstFact uid items := by
          unfold firstFact
          rw [List.findSome?_append]
          simp [hn, hq]
        have hlw : ∀ day, lastWrite uid day (items ++ [it]) = lastWrite uid day items := by
          intro day
          unfold lastWrite
          rw [List.filterMap_append]
          simp [hn, hq]
        have hins := alistGet_insertFact_other (foldPairs items) it.1 f
          (fun hh => hq hh.symm)
        rw [hfold2, hins, hff2]
        refine ⟨ihIff, fun rec hr => ?_⟩
        obtain ⟨d0, f0, hf, e1, e2, e3, e4, e5, e6, e7, e8, hdays⟩ := ihRec rec hr
        exact ⟨d0, f0, hf, e1, e2, e3, e4, e5, e6, e7, e8,
          fun day => (hdays day).trans (hlw day).symm⟩

/-- One file's processing is the fold of its contributed (day, row) pairs. -/
theorem processFile_eq_foldPairs (month year : Nat) (pd : PD) (f : CsvFile) :
    processFile month year pd f =
      (filePairs month year f).foldl (fun acc it => processRow acc it.1 it.2) pd := by
  unfold processFile filePairs
  split
  · rfl
  · split_ifs
    · rfl
    · rw [List.foldl_map]

/-- The whole run is the fold of all included (day, row) pairs. -/
theorem runFiles_eq_foldPairs (month year : Nat) (files : List CsvFile) :
    runFiles month year files = foldPairs (includedPairs month year files) := by
  suffices h : ∀ pd, files.foldl (processFile month year) pd =
      (includedPairs month year files).foldl (fun acc it => processRow acc it.1 it.2) pd from
    h []
  induction files with
  | nil =>
    intro pd
    rfl
  | cons f fs ih =>
    intro pd
    rw [List.foldl_cons,
      show includedPairs month year (f :: fs) =
        filePairs month year f ++ includedPairs month year fs from by
          simp [includedPairs],
      List.foldl_append, ih (processFile month year pd f), processFile_eq_foldPairs]

/-! The claim C4 theorem proper. -/

/-- Claim C4: for every identity key present in the aggregate produced by the
run, the static fields of its record (name, admit date, payer, program,
annotations, and the always-empty ICD-10) are those of the first row that
established the identity, and the day-to-service map holds, for every day,
exactly the last write for that identity and day (later files overwrite
earlier ones for the same day). -/
theorem claim_C4 (month year : Nat) (files : List CsvFile) (uid : String)
    (rec : PatientRecord)
    (h : alistGet uid (runFiles month year files) = some rec) :
    ∃ d0 f0, firstFact uid (includedPairs month year files) = some (d0, f0) ∧
      rec.last_name = f0.last_name ∧ rec.first_name = f0.first_name ∧
      rec.admit_date = f0.admit_date ∧ rec.payer_source = f0.payer_source ∧
      rec.program = f0.program ∧ rec.icd10 = "" ∧ rec.ur_review = f0.ur_review ∧
      rec.billing_comments = f0.billing_comments ∧
      ∀ day, alistGet day rec.services = lastWrite uid day (includedPairs month year files) := by
  rw [runFiles_eq_foldPairs] at h
  exact (foldPairs_invariant (includedPairs month year files) uid).2 rec h

/-- Witness for C4: patient 123 across two files of the same day; the static
fields stay those of the first (Present) row, and day 5 holds the later
(Absent) write `X`. -/
theorem claim_C4_witness :
    ∃ d0 f0, firstFact "123" (includedPairs 3 2025 [demoFile1, demoFile2b]) = some (d0, f0) ∧
      (demoRecOverwritten).last_name = f0.last_name ∧
      (demoRecOverwritten).first_name = f0.first_name ∧
      (demoRecOverwritten).admit_date = f0.admit_date ∧
      (demoRecOverwritten).payer_source = f0.payer_source ∧
      (demoRecOverwritten).program = f0.program ∧
      (demoRecOverwritten).icd10 = "" ∧
      (demoRecOverwritten).ur_review = f0.ur_review ∧
      (demoRecOverwritten).billing_comments = f0.billing_comments ∧
      ∀ day, alistGet day (demoRecOverwritten).services =
        lastWrite "123" day (includedPairs 3 2025 [demoFile1, demoFile2b]) :=
  claim_C4 3 2025 [demoFile1, demoFile2b] "123" demoRecOverwritten (by decide)

/-! ## Claim C10: the UR-review field -/

theorem startsWithList_append_self (n rest : List Char) :
    startsWithList (n ++ rest) n = true := by
  induction n with
  | nil => simp [startsWithList]
  | cons c cs ih => simp [startsWithList, ih]

theorem containsList_append_left (x y n : List Char) (h : containsList y n = true) :
    containsList (x ++ y) n = true := by
  induction x with
  | nil => simpa using h
  | cons c cs ih => simp [containsList, ih]

theorem containsList_here (n y : List Char) : containsList (n ++ y) n = true := by
  cases n with
  | nil => cases y <;> simp [containsList, startsWithList]
  | cons c cs =>
    simp [containsList, startsWithList, startsWithList_append_self]

theorem containsList_mid (x n y : List Char) : containsList (x ++ n ++ y) n = true := by
  rw [List.append_assoc]
  exact containsList_append_left x (n ++ y) n (containsList_here n y)

/-- The shape of the UR-review text of any normalized fact: the f-string of
line 150 over the two annotation values (NaN cells print as `nan`). -/
theorem normRow_ur_review (r : Row) (f : AttendanceFact) (h : normRow r = some f) :
    f.ur_review = (r.urLoc.get).toPyStr ++ " - Next review: "
      ++ (r.nextReview.get).toPyStr :=
  (normRow_eq r f h).2.2.2.2.2.1

/-- A successful `firstFact` comes from an item normalizing to that fact. -/
theorem firstFact_some_normRow {uid : String} {items : List (Nat × Row)}
    {d0 : Nat} {f0 : AttendanceFact} (h : firstFact uid items = some (d0, f0)) :
    ∃ it ∈ items, normRow it.2 = some f0 := by
  obtain ⟨it, hit, hfn⟩ := List.exists_of_findSome?_eq_some h
  refine ⟨it, hit, ?_⟩
  split at hfn
  · rename_i f' hf'
    split_ifs at hfn
    obtain h2 := Option.some.inj hfn
    rw [hf', show f' = f0 from congrArg Prod.snd h2]
  · exact absurd hfn (by simp)

/-- Claim C10: the UR-review field of every aggregated record is exactly
`{UR Loc} - Next review: {Next Review}` from the establishing row, so it
always contains the literal text ` - Next review: `, is never empty, and the
UR Comments cell of every emitted patient row is non-blank. -/
theorem claim_C10 (month year : Nat) (files : List CsvFile) (uid : String)
    (rec : PatientRecord)
    (h : alistGet uid (runFiles month year files) = some rec) :
    (∃ a b, rec.ur_review = a ++ " - Next review: " ++ b) ∧
    containsList rec.ur_review.data " - Next review: ".data = true ∧
    rec.ur_review ≠ "" ∧ urCellValue rec ≠ "" := by
  rw [runFiles_eq_foldPairs] at h
  obtain ⟨d0, f0, hff, e1, e2, e3, e4, e5, e6, e7, e8, hdays⟩ :=
    (foldPairs_invariant _ uid).2 rec h
  obtain ⟨it, -, hnr⟩ := firstFact_some_normRow hff
  have hshape : rec.ur_review =
      ((it.2).urLoc.get).toPyStr ++ " - Next review: "
        ++ ((it.2).nextReview.get).toPyStr :=
    e7.trans (normRow_ur_review it.2 f0 hnr)
  have hcontains : containsList rec.ur_review.data " - Next review: ".data = true := by
    rw [hshape]
    simp only [String.data_append]
    exact containsList_mid _ _ _
  have hne : rec.ur_review ≠ "" := by
    intro hemp
    have hdata : rec.ur_review.data = [] := by rw [hemp]
    rw [hshape] at hdata
    simp only [String.data_append] at hdata
    rcases List.append_eq_nil.mp hdata with ⟨h1, -⟩
    rcases List.append_eq_nil.mp h1 with ⟨-, h2⟩
    exact absurd h2 (by decide)
  exact ⟨⟨_, _, hshape⟩, hcontains, hne, hne⟩

/-- Witness for C10 at the aggregate of the two demo files. -/
theorem claim_C10_witness :
    (∃ a b, demoRecOverwritten.ur_review = a ++ " - Next review: " ++ b) ∧
    containsList demoRecOverwritten.ur_review.data " - Next review: ".data = true ∧
    demoRecOverwritten.ur_review ≠ "" ∧ urCellValue demoRecOverwritten ≠ "" :=
  claim_C10 3 2025 [demoFile1, demoFile2b] "123" demoRecOverwritten (by decide)

/-! ## Claim C6: sorting of the patient groups -/

theorem filter_orderedInsert_key (k : String) (x : String × PatientRecord) (l : PD) :
    (List.orderedInsert byLastLe x l).filter (fun e => decide (e.2.last_name = k)) =
      if x.2.last_name = k then x :: l.filter (fun e => decide (e.2.last_name = k))
      else l.filter (fun e => decide (e.2.last_name = k)) := by
  induction l with
  | nil =>
    by_cases hx : x.2.last_name = k <;> simp [List.orderedInsert, hx]
  | cons y ys ih =>
    by_cases hr : byLastLe x y
    · simp only [List.orderedInsert]
      rw [if_pos hr]
      by_cases hx : x.2.last_name = k
      · simp [List.filter_cons, hx]
      · simp [List.filter_cons, hx]
    · simp only [List.orderedInsert]
      rw [if_neg hr]
      by_cases hx : x.2.last_name = k
      · have hyk : ¬(y.2.last_name = k) := by
          intro hy
          exact hr (show x.2.last_name ≤ y.2.last_name by rw [hx, hy])
        simp [List.filter_cons, hyk, hx, ih]
      · simp [List.filter_cons, hx, ih]

theorem filter_insertionSort_key (k : String) (l : PD) :
    (List.insertionSort byLastLe l).filter (fun e => decide (e.2.last_name = k)) =
      l.filter (fun e => decide (e.2.last_name = k)) := by
  induction l with
  | nil => rfl
  | cons x xs ih =>
    simp only [List.insertionSort]
    rw [filter_orderedInsert_key]
    by_cases hx : x.2.last_name = k
    · rw [if_pos hx, ih, List.filter_cons, if_pos (by simp [hx])]
    · rw [if_neg hx, ih, List.filter_cons, if_neg (by simp [hx])]

/-- Claim C6: within each group, the emitted rows are sorted ascending by
last name; the sort is a permutation of the group; and it is stable: for any
last-name value, the subsequence of entries bearing it is unchanged, and the
group lists themselves preserve the aggregate's insertion order (they are
sublists of `patient_data`). -/
theorem claim_C6 (pd : PD) :
    List.Sorted byLastLe (sortByLast (standard_patients pd)) ∧
    List.Sorted byLastLe (sortByLast (medicaid_patients pd)) ∧
    (sortByLast (standard_patients pd)).Perm (standard_patients pd) ∧
    (sortByLast (medicaid_patients pd)).Perm (medicaid_patients pd) ∧
    (∀ k, (sortByLast (standard_patients pd)).filter (fun e => decide (e.2.last_name = k)) =
      (standard_patients pd).filter (fun e => decide (e.2.last_name = k))) ∧
    (∀ k, (sortByLast (medicaid_patients pd)).filter (fun e => decide (e.2.last_name = k)) =
      (medicaid_patients pd).filter (fun e => decide (e.2.last_name = k))) ∧
    List.Sublist (standard_patients pd) pd ∧
    List.Sublist (medicaid_patients pd) pd := by
  haveI : IsTotal (String × PatientRecord) byLastLe :=
    ⟨fun a b => le_total a.2.last_name b.2.last_name⟩
  haveI : IsTrans (String × PatientRecord) byLastLe :=
    ⟨fun a b c hab hbc => le_trans hab hbc⟩
  exact ⟨List.sorted_insertionSort _ _, List.sorted_insertionSort _ _,
    List.perm_insertionSort _ _, List.perm_insertionSort _ _,
    fun k => filter_insertionSort_key k _, fun k => filter_insertionSort_key k _,
    List.filter_sublist _, List.filter_sublist _⟩

/-- Witness for C6 on the demo aggregate. -/
theorem claim_C6_witness :
    List.Sorted byLastLe (sortByLast (standard_patients demoPD)) :=
  (claim_C6 demoPD).1
